import Mathlib

/-!
Shallow embedding of the tool-inventory record store
(`src/tool_inventory/models.py`, `src/tool_inventory/connections.py`,
`src/tool_inventory/routers/webapp.py`).

Modelling conventions:
* UUIDs and user identifiers are `Nat`.
* Python `int` quantities are `Int`.
* The backing store is a list of `Tool` rows (`DBState`); a SQL
  `select ... where` is a `List.filter`, `.one()` is a match on that filter
  (zero rows → `NoResultFound`, more than one → `MultipleResultsFound`).
* `session.commit()` on the operations that catch `IntegrityError`
  (`create_tool`, `update_tool`) is abstracted by an explicit `commitOk`
  Boolean: `true` models a successful commit, `false` models the backing
  store reporting a uniqueness/integrity violation at commit time.
* Operations that raise exceptions return `Except DbError`.
-/

/-- UUIDs are modelled as naturals. -/
abbrev UUID := Nat

/-- The user model (`models.User`): only the identifier is relevant to the
record store. -/
structure User where
  id : UUID
deriving Repr, DecidableEq

/-- The tool row (`models.Tool`). Field constraints (`min_length=1` on
`name`, `ge=0` on `quantity`) are checked by `Tool.model_validate` below,
matching pydantic validation. -/
structure Tool where
  id : UUID
  name : String
  quantity : Int
  description : String
  image : String
  created_by_user_id : UUID
deriving Repr, DecidableEq

/-- The tool creation payload (`models.ToolCreate`). Pydantic enforces
`min_length=1` on `name` and `ge=0` on `quantity` at parse time; those
constraints appear as hypotheses of the theorems below. -/
structure ToolCreate where
  name : String
  quantity : Int
  description : String := ""
  image : String := ""
deriving Repr, DecidableEq

/-- The partial-update payload (`models.ToolPatch`): every field optional. -/
structure ToolPatch where
  name : Option String := none
  quantity : Option Int := none
  description : Option String := none
  image : Option String := none
deriving Repr, DecidableEq

/-- Python's `str.strip()`: remove leading and trailing whitespace (stated on
the character list so that it is kernel-computable; same trimming as core's
`String.trim`). -/
def strStrip (s : String) : String :=
  ⟨(((s.data.dropWhile Char.isWhitespace).reverse.dropWhile
      Char.isWhitespace).reverse)⟩

/-- `models.ToolCreate.to_model`: builds a `Tool` from the payload, stripping
surrounding whitespace from the text fields. The generated `uuid4` primary
key is passed in as `fresh_id` (randomness modelled as an external input),
and `owner0` stands for the not-yet-assigned `created_by_user_id` (the
Python constructor leaves it unset; `create_tool` overwrites it). -/
def ToolCreate.to_model (c : ToolCreate) (fresh_id : UUID) (owner0 : UUID) : Tool :=
  { id := fresh_id
    name := strStrip c.name
    quantity := c.quantity
    description := strStrip c.description
    image := strStrip c.image
    created_by_user_id := owner0 }

/-- `models.ToolPatch.patch`: each field that is present (non-`None`)
overwrites the corresponding field of the tool; absent fields are left
unchanged. -/
def ToolPatch.patch (p : ToolPatch) (tool : Tool) : Tool :=
  let tool := match p.name with
    | some n => { tool with name := n }
    | none => tool
  let tool := match p.quantity with
    | some q => { tool with quantity := q }
    | none => tool
  let tool := match p.description with
    | some d => { tool with description := d }
    | none => tool
  let tool := match p.image with
    | some i => { tool with image := i }
    | none => tool
  tool

/-- `Tool.model_validate` (pydantic validation of the `Tool` table model):
`name` must satisfy `min_length=1` and `quantity` must satisfy `ge=0`.
Returns `true` when the row is valid; the Python call raises
`ValidationError` when it is not. -/
def Tool.model_validate (t : Tool) : Bool :=
  decide (1 ≤ t.name.length) && decide (0 ≤ t.quantity)

/-- Semantic reading of the row invariants: non-empty name and non-negative
quantity. -/
def validTool (t : Tool) : Prop :=
  t.name ≠ "" ∧ 0 ≤ t.quantity

instance (t : Tool) : Decidable (validTool t) := by
  unfold validTool
  infer_instance

/-- The typed failures raised by the record store (`connections.py`):
`ToolNotFoundError`, `ToolExistsError`, pydantic's `ValidationError`,
SQLAlchemy's `MultipleResultsFound` (uncaught by the store, impossible when
ids are unique), and Python's builtin `TypeError` (raised by the tuple sort
in `search_tools` when two tied-score hits are compared, since `Tool`
defines no ordering). -/
inductive DbError where
  | toolNotFound (id : UUID)
  | toolExists (id : UUID)
  | validationError
  | multipleResults
  | typeError
deriving Repr, DecidableEq

/-- The backing store: the list of persisted tool rows, in insertion order. -/
structure DBState where
  tools : List Tool
deriving Repr, DecidableEq

instance {ε α : Type} [DecidableEq ε] [DecidableEq α] : DecidableEq (Except ε α) :=
  fun x y =>
    match x, y with
    | .ok a, .ok b =>
      if h : a = b then .isTrue (by rw [h])
      else .isFalse (by intro hc; cases hc; exact h rfl)
    | .error a, .error b =>
      if h : a = b then .isTrue (by rw [h])
      else .isFalse (by intro hc; cases hc; exact h rfl)
    | .ok _, .error _ => .isFalse (by intro hc; cases hc)
    | .error _, .ok _ => .isFalse (by intro hc; cases hc)

/-- `Database.get_tool_by_id`: `select(Tool).where(created_by_user_id ==
user.id, id == tool_id)` then `.one()`; `NoResultFound` is translated to
`ToolNotFoundError`. -/
def Database.get_tool_by_id (user : User) (tool_id : UUID) (st : DBState) :
    Except DbError Tool :=
  match st.tools.filter (fun t => t.created_by_user_id == user.id && t.id == tool_id) with
  | [t] => .ok t
  | [] => .error (.toolNotFound tool_id)
  | _ => .error .multipleResults

/-- `Database.get_tools`: all rows of the owner; Python's `if name:` adds the
exact-name restriction only when `name` is neither `None` nor the empty
string (string truthiness). -/
def Database.get_tools (user : User) (name : Option String) (st : DBState) :
    List Tool :=
  let owned := st.tools.filter (fun t => t.created_by_user_id == user.id)
  match name with
  | some n => if n ≠ "" then owned.filter (fun t => t.name == n) else owned
  | none => owned

/-- Insert/delete (indel) edit-distance core, fuel-indexed so the recursion
is structural: every recursive call shrinks the combined length by at least
one, so `fuel = xs.length + ys.length` always suffices. -/
def lcsLenAux : Nat → List Char → List Char → Nat
  | _, [], _ => 0
  | _, _ :: _, [] => 0
  | 0, _ :: _, _ :: _ => 0
  | fuel + 1, a :: as, b :: bs =>
    if a = b then lcsLenAux fuel as bs + 1
    else max (lcsLenAux fuel (a :: as) bs) (lcsLenAux fuel as (b :: bs))

/-- Length of a longest common subsequence of two character lists. -/
def lcsLen (xs ys : List Char) : Nat :=
  lcsLenAux (xs.length + ys.length) xs ys

/-- Modelled from the spec: the fuzzy-similarity collaborator
(`thefuzz.fuzz.ratio`) is an external library, not part of this repository.
The spec prescribes a 0-100 Levenshtein-ratio
`100 * (1 - distance / (len a + len b))`; with the insert/delete edit
distance `dist = |a| + |b| - 2 * lcs` this is `100 * 2 * lcs / (|a| + |b|)`
(integer division; two empty strings score 100). -/
def fuzz_ratio (a b : String) : Nat :=
  let la := a.data.length
  let lb := b.data.length
  if la + lb = 0 then 100
  else (100 * (2 * lcsLen a.data b.data)) / (la + lb)

/-- Python's `str.lower()`: character-wise lowercasing (the same mapping as
core's `String.toLower`, stated on the character list so that it is
kernel-computable). -/
def strLower (s : String) : String := ⟨s.data.map Char.toLower⟩

/-- Ordering used to model Python's `sorted(matches, reverse=True)` on
`(score, tool)` pairs: descending by score. -/
def scoreGe (a b : Nat × Tool) : Prop := b.1 ≤ a.1

instance : DecidableRel scoreGe := fun a b =>
  inferInstanceAs (Decidable (b.1 ≤ a.1))

instance : IsTotal (Nat × Tool) scoreGe := ⟨fun a b => Nat.le_total b.1 a.1⟩

instance : IsTrans (Nat × Tool) scoreGe :=
  ⟨fun _ _ _ h1 h2 => Nat.le_trans h2 h1⟩

/-- The scores of the search hits, in scan order: one entry per row of the
owner whose similarity score against the lowercased query is strictly above
50 (the first components of the `(score, tool)` tuples the source
accumulates). -/
def searchScores (user : User) (query : String) (st : DBState) : List Nat :=
  ((st.tools.filter (fun t => t.created_by_user_id == user.id)).filter
    (fun t => decide (50 < fuzz_ratio (strLower query) (strLower t.name)))).map
    (fun t => fuzz_ratio (strLower query) (strLower t.name))

/-- `Database.search_tools`: scan the owner's rows, keep those whose
similarity score between the lowercased query and lowercased name is
strictly above 50, and return them sorted descending by score via
`sorted(matches, reverse=True)` on `(score, tool)` tuples. CPython's tuple
comparison, when the scores of two compared tuples are equal, falls through
to `Tool < Tool`; `Tool` (a pydantic/SQLModel class) defines no ordering and
two distinct rows are never `==`, so the sort raises `TypeError` exactly
when two hits share a score (any tied pair is compared: binary insertion
must probe a member of the tie block to place a tied element, and a merge
must compare tied heads). With pairwise-distinct scores the result is the
unique strictly-descending-by-score order, here produced by
`List.insertionSort` on the first components. -/
def Database.search_tools (user : User) (query : String) (st : DBState) :
    Except DbError (List Tool) :=
  let pairs := ((st.tools.filter
      (fun t => t.created_by_user_id == user.id)).filter
    (fun t => decide (50 < fuzz_ratio (strLower query) (strLower t.name)))).map
    (fun t => (fuzz_ratio (strLower query) (strLower t.name), t))
  if (searchScores user query st).Nodup then
    .ok ((List.insertionSort scoreGe pairs).map Prod.snd)
  else .error .typeError

/-- `Database.create_tool`: overwrite `created_by_user_id` with the calling
user, validate, add and commit; an `IntegrityError` at commit
(`commitOk = false`) becomes `ToolExistsError`. A successful commit appends
the row. -/
def Database.create_tool (user : User) (tool : Tool) (st : DBState)
    (commitOk : Bool) : Except DbError (Tool × DBState) :=
  let tool := { tool with created_by_user_id := user.id }
  if !(Tool.model_validate tool) then .error .validationError
  else if commitOk then .ok (tool, ⟨st.tools ++ [tool]⟩)
  else .error (.toolExists tool.id)

/-- `Database.update_tool`: reject a foreign-owned row with
`ToolNotFoundError` before touching the store, validate, then commit; an
`IntegrityError` at commit (`commitOk = false`) becomes `ToolNotFoundError`.
A successful commit replaces the row with the matching primary key. -/
def Database.update_tool (user : User) (tool : Tool) (st : DBState)
    (commitOk : Bool) : Except DbError (Tool × DBState) :=
  if tool.created_by_user_id != user.id then .error (.toolNotFound tool.id)
  else if !(Tool.model_validate tool) then .error .validationError
  else if commitOk then
    .ok (tool, ⟨st.tools.map (fun t => if t.id == tool.id then tool else t)⟩)
  else .error (.toolNotFound tool.id)

/-- `Database.delete_tool`: look the row up via `get_tool_by_id` (so the
same `ToolNotFoundError` behaviour applies), then delete it by primary key
and commit. -/
def Database.delete_tool (user : User) (tool_id : UUID) (st : DBState) :
    Except DbError DBState :=
  match Database.get_tool_by_id user tool_id st with
  | .error e => .error e
  | .ok t => .ok ⟨st.tools.filter (fun x => x.id != t.id)⟩

/-- `routers/webapp.py::web_update_quantity`: fetch the tool, compute
`max(0, quantity + 1)` for the `"increment"` action and `max(0, quantity - 1)`
for every other action, patch the tool and persist it through
`Database.update_tool`. -/
def web_update_quantity (user : User) (tool_id : UUID) (action : String)
    (st : DBState) (commitOk : Bool) : Except DbError (Tool × DBState) :=
  match Database.get_tool_by_id user tool_id st with
  | .error e => .error e
  | .ok tool =>
    let p : ToolPatch :=
      { quantity := some (max 0
          (if action = "increment" then tool.quantity + 1 else tool.quantity - 1)) }
    Database.update_tool user (p.patch tool) st commitOk

/-- Process-wide uniqueness of primary keys, the backing store's constraint
on `Tool.id`. -/
def idsNodup (st : DBState) : Prop := (st.tools.map Tool.id).Nodup

instance (st : DBState) : Decidable (idsNodup st) := by
  unfold idsNodup
  infer_instance

/-! Concrete fixtures used by witnesses and counterexamples. -/

/-- A user. -/
def userA : User := ⟨10⟩

/-- A second, distinct user. -/
def userB : User := ⟨20⟩

/-- A tool row owned by `userA`. -/
def hammerTool : Tool :=
  { id := 1, name := "Hammer", quantity := 5, description := "", image := ""
    created_by_user_id := 10 }

/-- A store holding only `hammerTool`. -/
def stHammer : DBState := ⟨[hammerTool]⟩

/-- A second tool also named "Hammer", also owned by `userA`, with a
different primary key. -/
def hammerDup : Tool :=
  { id := 2, name := "Hammer", quantity := 3, description := "", image := ""
    created_by_user_id := 10 }

/-- A store holding two same-named hammers of the same owner: searching
"Hammer" scores both 100 and the tuple sort crashes. -/
def stTwoHammers : DBState := ⟨[hammerTool, hammerDup]⟩

/-- A valid tool row owned by user 7. -/
def sawTool : Tool :=
  { id := 3, name := "Saw", quantity := 2, description := "", image := ""
    created_by_user_id := 7 }

/-- A row violating the non-empty-name constraint, owned by user 0. -/
def blankTool : Tool :=
  { id := 5, name := "", quantity := 0, description := "", image := ""
    created_by_user_id := 0 }

/-! Helper lemmas. -/

theorem one_le_length_iff (s : String) : 1 ≤ s.length ↔ s ≠ "" := by
  cases s with
  | mk data =>
    cases data with
    | nil => decide
    | cons c cs =>
      constructor
      · intro _ h
        exact List.cons_ne_nil c cs (congrArg String.data h)
      · intro _
        exact Nat.succ_le_succ (Nat.zero_le _)

theorem model_validate_iff (t : Tool) :
    Tool.model_validate t = true ↔ validTool t := by
  unfold Tool.model_validate validTool
  rw [Bool.and_eq_true, decide_eq_true_iff, decide_eq_true_iff,
    one_le_length_iff]

theorem model_validate_owner (t : Tool) (u : UUID) :
    Tool.model_validate { t with created_by_user_id := u }
      = Tool.model_validate t := rfl

/-! Claim theorems. -/

/-- Claim C4: `ToolPatch.patch` overwrites exactly the fields present and
non-null in the patch, leaves absent fields (and `id`, `created_by_user_id`)
unchanged, and the all-null patch leaves the record unchanged. -/
theorem claim_C4 (p : ToolPatch) (tool : Tool) :
    (p.patch tool).name = p.name.getD tool.name ∧
    (p.patch tool).quantity = p.quantity.getD tool.quantity ∧
    (p.patch tool).description = p.description.getD tool.description ∧
    (p.patch tool).image = p.image.getD tool.image ∧
    (p.patch tool).id = tool.id ∧
    (p.patch tool).created_by_user_id = tool.created_by_user_id ∧
    ToolPatch.patch {} tool = tool := by
  obtain ⟨n, q, d, i⟩ := p
  cases n <;> cases q <;> cases d <;> cases i <;>
    simp [ToolPatch.patch, Option.getD]

/-- Claim C6: `Database.update_tool` with a record whose `created_by_user_id`
differs from the calling user fails with `ToolNotFoundError`; the check comes
before any persistence step, so the outcome is the same whatever the backing
store would have answered at commit time (`commitOk` arbitrary), and no new
state is produced. -/
theorem claim_C6 (u : User) (tool : Tool) (st : DBState)
    (h : tool.created_by_user_id ≠ u.id) :
    ∀ commitOk : Bool,
      Database.update_tool u tool st commitOk
        = .error (.toolNotFound tool.id) := by
  intro c
  simp [Database.update_tool, bne_iff_ne, h]

/-- Witness for C6: `userB` cannot update `userA`'s hammer. -/
theorem claim_C6_witness :
    Database.update_tool userB hammerTool stHammer true
      = .error (.toolNotFound 1) ∧
    Database.update_tool userB hammerTool stHammer false
      = .error (.toolNotFound 1) :=
  ⟨claim_C6 userB hammerTool stHammer (by decide) true,
   claim_C6 userB hammerTool stHammer (by decide) false⟩

/-- Counterexample for C5: an integrity violation at commit during
`Database.update_tool` surfaces as `ToolNotFoundError`, not as
`ToolExistsError` as the claim states. -/
theorem claim_C5_counterexample :
    Database.update_tool userA hammerTool stHammer false
      = .error (.toolNotFound 1) ∧
    Database.update_tool userA hammerTool stHammer false
      ≠ .error (.toolExists 1) := by decide

/-- Claim C5 (amended): a uniqueness/integrity conflict reported by the
backing store makes `create_tool` fail with `ToolExistsError`, but makes
`update_tool` fail with `ToolNotFoundError`. -/
theorem claim_C5_amended (u : User) (tool : Tool) (st : DBState)
    (hv : Tool.model_validate tool = true) :
    Database.create_tool u tool st false = .error (.toolExists tool.id) ∧
    (tool.created_by_user_id = u.id →
      Database.update_tool u tool st false
        = .error (.toolNotFound tool.id)) := by
  constructor
  · have hv' : Tool.model_validate { tool with created_by_user_id := u.id }
        = true := (model_validate_owner tool u.id).trans hv
    simp [Database.create_tool, hv']
  · intro how
    simp [Database.update_tool, how, hv]

/-- Witness for C5: a conflicting commit on create yields
`ToolExistsError`. -/
theorem claim_C5_witness :
    Database.create_tool userA hammerTool ⟨[]⟩ false
      = .error (.toolExists 1) :=
  (claim_C5_amended userA hammerTool ⟨[]⟩ (by decide)).1

/-- Counterexample for C9: with the empty string as the name filter,
`get_tools` returns all of the owner's rows (Python string truthiness skips
the filter), including rows whose name is not the empty string — not
"exactly the records whose name equals the filter". -/
theorem claim_C9_counterexample :
    hammerTool ∈ Database.get_tools userA (some "") stHammer ∧
    hammerTool.name ≠ "" := by decide

/-- Claim C9 (amended): `get_tools` with no filter, or with the empty string
as filter, returns exactly the owner's rows; with a non-empty filter it
returns exactly the owner's rows whose name equals the filter exactly. -/
theorem claim_C9_amended (u : User) (st : DBState) :
    (∀ t, t ∈ Database.get_tools u none st ↔
      t ∈ st.tools ∧ t.created_by_user_id = u.id) ∧
    (∀ t, t ∈ Database.get_tools u (some "") st ↔
      t ∈ st.tools ∧ t.created_by_user_id = u.id) ∧
    (∀ n : String, n ≠ "" → ∀ t,
      t ∈ Database.get_tools u (some n) st ↔
        t ∈ st.tools ∧ t.created_by_user_id = u.id ∧ t.name = n) := by
  refine ⟨?_, ?_, ?_⟩
  · intro t
    simp [Database.get_tools, List.mem_filter]
  · intro t
    simp [Database.get_tools, List.mem_filter]
  · intro n hn t
    simp [Database.get_tools, hn, List.mem_filter, and_assoc]
    intro _
    constructor
    · rintro ⟨h1, h2⟩
      exact ⟨h2, h1⟩
    · rintro ⟨h1, h2⟩
      exact ⟨h2, h1⟩

/-- Witness for C9: the exact-match filter finds the hammer. -/
theorem claim_C9_witness :
    hammerTool ∈ Database.get_tools userA (some "Hammer") stHammer :=
  ((claim_C9_amended userA stHammer).2.2 "Hammer" (by decide)
    hammerTool).mpr (by decide)

/-- With pairwise-distinct primary keys, a filter that forces a fixed id
keeps at most one row. -/
theorem length_filter_le_one_of_nodup_ids (l : List Tool)
    (hn : (l.map Tool.id).Nodup) (p : Tool → Bool) (tid : UUID)
    (hp : ∀ t, p t = true → t.id = tid) :
    (l.filter p).length ≤ 1 := by
  have h1 : (l.filter p).Sublist l := List.filter_sublist l
  have hsub : ((l.filter p).map Tool.id).Nodup := hn.sublist (h1.map Tool.id)
  cases hfp : l.filter p with
  | nil => simp
  | cons a tl =>
    cases tl with
    | nil => simp
    | cons b tl2 =>
      exfalso
      have ha : p a = true :=
        (List.mem_filter.mp (hfp ▸ List.mem_cons_self a (b :: tl2))).2
      have hb : p b = true :=
        (List.mem_filter.mp
          (hfp ▸ List.mem_cons_of_mem a (List.mem_cons_self b tl2))).2
      rw [hfp] at hsub
      simp only [List.map_cons, List.nodup_cons, List.mem_cons] at hsub
      exact hsub.1 (Or.inl ((hp a ha).trans (hp b hb).symm))

/-- A successful `get_tool_by_id` returns a stored row of the requesting
owner with the requested id. -/
theorem get_ok_mem {u : User} {tid : UUID} {st : DBState} {t : Tool}
    (h : Database.get_tool_by_id u tid st = .ok t) :
    t ∈ st.tools ∧ t.created_by_user_id = u.id ∧ t.id = tid := by
  unfold Database.get_tool_by_id at h
  cases hfp : st.tools.filter
      (fun t => t.created_by_user_id == u.id && t.id == tid) with
  | nil => rw [hfp] at h; cases h
  | cons a tl =>
    cases tl with
    | nil =>
      rw [hfp] at h
      injection h with heq
      subst heq
      have := List.mem_filter.mp (hfp ▸ List.mem_cons_self a [])
      simpa using this
    | cons b tl2 => rw [hfp] at h; cases h

/-- Under unique ids, `get_tool_by_id` fails with `ToolNotFoundError`
exactly when no row with that id exists under that owner. -/
theorem get_notFound_iff (u : User) (tid : UUID) (st : DBState)
    (hn : idsNodup st) :
    Database.get_tool_by_id u tid st = .error (.toolNotFound tid) ↔
      ¬ ∃ t, t ∈ st.tools ∧ t.created_by_user_id = u.id ∧ t.id = tid := by
  have hle : (st.tools.filter
      (fun t => t.created_by_user_id == u.id && t.id == tid)).length ≤ 1 :=
    length_filter_le_one_of_nodup_ids st.tools hn _ tid
      (fun t ht => by
        simp only [Bool.and_eq_true, beq_iff_eq] at ht
        exact ht.2)
  unfold Database.get_tool_by_id
  cases hfp : st.tools.filter
      (fun t => t.created_by_user_id == u.id && t.id == tid) with
  | nil =>
    constructor
    · intro _
      rintro ⟨t, htm, ho, hi⟩
      have hmem : t ∈ st.tools.filter
          (fun t => t.created_by_user_id == u.id && t.id == tid) :=
        List.mem_filter.mpr ⟨htm, by simp [ho, hi]⟩
      rw [hfp] at hmem
      simp at hmem
    · intro _
      rfl
  | cons a tl =>
    cases tl with
    | nil =>
      have hmem := List.mem_filter.mp (hfp ▸ List.mem_cons_self a [])
      simp only [Bool.and_eq_true, beq_iff_eq] at hmem
      apply iff_of_false
      · intro hcontra
        exact Except.noConfusion hcontra
      · intro hno
        exact hno ⟨a, hmem.1, hmem.2.1, hmem.2.2⟩
    | cons b tl2 =>
      rw [hfp] at hle
      simp at hle

/-- `delete_tool` fails with `ToolNotFoundError` exactly when its lookup
(`get_tool_by_id`) does. -/
theorem delete_notFound_iff (u : User) (tid : UUID) (st : DBState) :
    Database.delete_tool u tid st = .error (.toolNotFound tid) ↔
      Database.get_tool_by_id u tid st = .error (.toolNotFound tid) := by
  unfold Database.delete_tool
  cases hg : Database.get_tool_by_id u tid st with
  | error e => simp
  | ok t =>
    apply iff_of_false
    · intro hcontra
      exact Except.noConfusion hcontra
    · intro hcontra
      exact Except.noConfusion hcontra

/-- After a successful `delete_tool`, looking the id up again fails with
`ToolNotFoundError`. -/
theorem get_after_delete (u : User) (tid : UUID) (st st' : DBState)
    (h : Database.delete_tool u tid st = .ok st') :
    Database.get_tool_by_id u tid st' = .error (.toolNotFound tid) := by
  unfold Database.delete_tool at h
  cases hg : Database.get_tool_by_id u tid st with
  | error e => rw [hg] at h; exact Except.noConfusion h
  | ok t =>
    rw [hg] at h
    injection h with h'
    subst h'
    obtain ⟨_, _, hid⟩ := get_ok_mem hg
    unfold Database.get_tool_by_id
    have hnil : (st.tools.filter (fun x => x.id != t.id)).filter
        (fun x => x.created_by_user_id == u.id && x.id == tid) = [] := by
      apply List.filter_eq_nil_iff.mpr
      intro x hx
      have hxne : x.id ≠ t.id := by
        have := (List.mem_filter.mp hx).2
        simpa [bne_iff_ne] using this
      simp only [Bool.and_eq_true, beq_iff_eq, not_and]
      intro _
      rw [← hid]
      exact hxne
    rw [hnil]

/-- Claim C2: under the store's id-uniqueness invariant, `get_tool_by_id`
and `delete_tool` fail with `ToolNotFoundError` exactly when no record with
that id exists under that owner; a record of another owner is
indistinguishable from a non-existent one; and after a successful delete a
subsequent get of the same id fails with `ToolNotFoundError`. -/
theorem claim_C2 (st : DBState) (hn : idsNodup st) :
    (∀ (u : User) (tid : UUID),
      (Database.get_tool_by_id u tid st = .error (.toolNotFound tid) ↔
        ¬ ∃ t, t ∈ st.tools ∧ t.created_by_user_id = u.id ∧ t.id = tid) ∧
      (Database.delete_tool u tid st = .error (.toolNotFound tid) ↔
        ¬ ∃ t, t ∈ st.tools ∧ t.created_by_user_id = u.id ∧ t.id = tid)) ∧
    (∀ t, t ∈ st.tools → ∀ v : User, v.id ≠ t.created_by_user_id →
      Database.get_tool_by_id v t.id st = .error (.toolNotFound t.id) ∧
      Database.delete_tool v t.id st = .error (.toolNotFound t.id)) ∧
    (∀ (u : User) (tid : UUID) (st' : DBState),
      Database.delete_tool u tid st = .ok st' →
      Database.get_tool_by_id u tid st' = .error (.toolNotFound tid)) := by
  refine ⟨fun u tid => ⟨get_notFound_iff u tid st hn,
      (delete_notFound_iff u tid st).trans (get_notFound_iff u tid st hn)⟩,
    ?_, fun u tid st' h => get_after_delete u tid st st' h⟩
  intro t htm v hv
  have hn' : (st.tools.map Tool.id).Nodup := hn
  have hno : ¬ ∃ x, x ∈ st.tools ∧ x.created_by_user_id = v.id ∧
      x.id = t.id := by
    rintro ⟨x, hxm, hxo, hxi⟩
    have hxt : x = t := List.inj_on_of_nodup_map hn' hxm htm hxi
    subst hxt
    exact hv hxo.symm
  exact ⟨(get_notFound_iff v t.id st hn).mpr hno,
    ((delete_notFound_iff v t.id st).trans
      (get_notFound_iff v t.id st hn)).mpr hno⟩

/-- Witness for C2: `userB` can neither fetch nor delete `userA`'s
hammer. -/
theorem claim_C2_witness :
    Database.get_tool_by_id userB 1 stHammer = .error (.toolNotFound 1) ∧
    Database.delete_tool userB 1 stHammer = .error (.toolNotFound 1) :=
  (claim_C2 stHammer (by decide)).2.1 hammerTool (by decide) userB (by decide)

/-- Counterexample for C3: the draft named `" "` is a valid draft as the
claim words it (non-empty name, non-negative quantity), yet `to_model`
strips the name to `""` and create fails with `ValidationError` instead of
round-tripping. -/
theorem claim_C3_counterexample :
    (" " : String) ≠ "" ∧ ((0 : Int) ≤ 0) ∧
    Database.create_tool ⟨7⟩ (ToolCreate.to_model ⟨" ", 0, "", ""⟩ 3 99)
      ⟨[]⟩ true = .error .validationError := by decide

/-- Claim C3 (amended): for every draft with non-negative quantity whose
name is non-empty after whitespace stripping, create succeeds, assigns the
fresh id (unique in the new state), sets the owner to the calling user
regardless of the pre-set owner value, and a subsequent `get_tool_by_id`
with the same owner and id returns the created record. -/
theorem claim_C3_amended (user : User) (c : ToolCreate) (fid owner0 : UUID)
    (st : DBState) (hname : strStrip c.name ≠ "") (hq : 0 ≤ c.quantity)
    (hfresh : fid ∉ st.tools.map Tool.id) :
    ∃ t' st',
      Database.create_tool user (c.to_model fid owner0) st true
        = .ok (t', st') ∧
      t'.created_by_user_id = user.id ∧ t'.id = fid ∧
      (st'.tools.filter (fun x => x.id == fid)).length = 1 ∧
      Database.get_tool_by_id user fid st' = .ok t' := by
  have hv : Tool.model_validate
      { c.to_model fid owner0 with created_by_user_id := user.id } = true := by
    rw [model_validate_owner]
    unfold Tool.model_validate
    rw [Bool.and_eq_true, decide_eq_true_iff, decide_eq_true_iff]
    exact ⟨(one_le_length_iff _).mpr hname, hq⟩
  refine ⟨{ c.to_model fid owner0 with created_by_user_id := user.id },
    ⟨st.tools ++ [{ c.to_model fid owner0 with created_by_user_id := user.id }]⟩,
    ?_, rfl, rfl, ?_, ?_⟩
  · simp [Database.create_tool, hv]
  · have hstnil : st.tools.filter (fun x => x.id == fid) = [] := by
      apply List.filter_eq_nil_iff.mpr
      intro x hx hxp
      simp only [beq_iff_eq] at hxp
      exact hfresh (hxp ▸ List.mem_map_of_mem Tool.id hx)
    simp [List.filter_append, hstnil, ToolCreate.to_model]
  · have hstnil2 : st.tools.filter
        (fun t => t.created_by_user_id == user.id && t.id == fid) = [] := by
      apply List.filter_eq_nil_iff.mpr
      intro x hx hxp
      simp only [Bool.and_eq_true, beq_iff_eq] at hxp
      exact hfresh (hxp.2 ▸ List.mem_map_of_mem Tool.id hx)
    simp [Database.get_tool_by_id, List.filter_append, hstnil2,
      ToolCreate.to_model]

/-- Witness for C3: creating a Hammer draft round-trips. -/
theorem claim_C3_witness :
    ∃ t' st',
      Database.create_tool userA
        (ToolCreate.to_model ⟨"Hammer", 5, "", ""⟩ 3 99) ⟨[]⟩ true
        = .ok (t', st') ∧
      t'.created_by_user_id = userA.id ∧ t'.id = 3 ∧
      (st'.tools.filter (fun x => x.id == 3)).length = 1 ∧
      Database.get_tool_by_id userA 3 st' = .ok t' :=
  claim_C3_amended userA ⟨"Hammer", 5, "", ""⟩ 3 99 ⟨[]⟩ (by decide)
    (by decide) (by decide)

/-- Anatomy of a successful `create_tool`: the stored row is the input with
the owner overwritten, it passed validation, and it was appended. -/
theorem create_ok_elim {u : User} {tool : Tool} {st : DBState} {c : Bool}
    {t' : Tool} {st' : DBState}
    (h : Database.create_tool u tool st c = .ok (t', st')) :
    t' = { tool with created_by_user_id := u.id } ∧
    Tool.model_validate t' = true ∧ st' = ⟨st.tools ++ [t']⟩ := by
  cases c with
  | false =>
    exfalso
    by_cases hv : Tool.model_validate
        { tool with created_by_user_id := u.id } = true <;>
      simp [Database.create_tool, hv] at h
  | true =>
    by_cases hv : Tool.model_validate
        { tool with created_by_user_id := u.id } = true
    · simp only [Database.create_tool, hv, Bool.not_true,
        Bool.false_eq_true, if_false, if_true, Except.ok.injEq,
        Prod.mk.injEq] at h
      obtain ⟨h2, h3⟩ := h
      subst h2
      subst h3
      exact ⟨rfl, hv, rfl⟩
    · simp [Database.create_tool, hv] at h

/-- Anatomy of a successful `update_tool`: ownership held, validation
passed, and the row with the matching id was replaced. -/
theorem update_ok_elim {u : User} {tool : Tool} {st : DBState} {c : Bool}
    {t' : Tool} {st' : DBState}
    (h : Database.update_tool u tool st c = .ok (t', st')) :
    tool.created_by_user_id = u.id ∧ Tool.model_validate tool = true ∧
    t' = tool ∧
    st' = ⟨st.tools.map (fun t => if t.id == tool.id then tool else t)⟩ := by
  by_cases hown : tool.created_by_user_id = u.id
  · by_cases hv : Tool.model_validate tool = true
    · cases c with
      | false => simp [Database.update_tool, hown, hv] at h
      | true =>
        simp only [Database.update_tool, hown, hv, bne_self_eq_false,
          Bool.false_eq_true, if_false, Bool.not_true, if_true,
          Except.ok.injEq, Prod.mk.injEq] at h
        obtain ⟨h2, h3⟩ := h
        subst h2
        subst h3
        exact ⟨hown, hv, rfl, rfl⟩
    · exfalso
      simp [Database.update_tool, hown, hv] at h
  · exfalso
    have hbne : (tool.created_by_user_id != u.id) = true := by
      simpa [bne_iff_ne] using hown
    simp [Database.update_tool, hbne] at h

/-- Anatomy of a successful `delete_tool`: the lookup succeeded and the
row with the found id was removed. -/
theorem delete_ok_elim {u : User} {tid : UUID} {st st' : DBState}
    (h : Database.delete_tool u tid st = .ok st') :
    ∃ t, Database.get_tool_by_id u tid st = .ok t ∧
      st' = ⟨st.tools.filter (fun x => x.id != t.id)⟩ := by
  unfold Database.delete_tool at h
  cases hg : Database.get_tool_by_id u tid st with
  | error e => rw [hg] at h; exact Except.noConfusion h
  | ok t =>
    rw [hg] at h
    injection h with h1
    exact ⟨t, rfl, h1.symm⟩

/-- Counterexample for C7: an update of a record violating the non-empty
name constraint but owned by another user fails with `ToolNotFoundError`,
not with `ValidationError`, because the ownership check comes first. -/
theorem claim_C7_counterexample :
    blankTool.name = "" ∧
    Database.update_tool ⟨1⟩ blankTool ⟨[]⟩ true
      = .error (.toolNotFound 5) ∧
    Database.update_tool ⟨1⟩ blankTool ⟨[]⟩ true
      ≠ .error .validationError := by decide

/-- Claim C7 (amended): every stored record satisfies the invariants after
every operation; create with constraint-violating input fails with
`ValidationError`; update with constraint-violating input fails with
`ValidationError` provided the ownership check passes. Failures return no
new state, so nothing is persisted. -/
theorem claim_C7_amended (st : DBState)
    (hinv : ∀ t ∈ st.tools, validTool t) :
    (∀ (u : User) (tool : Tool) (c : Bool) (t' : Tool) (st' : DBState),
      Database.create_tool u tool st c = .ok (t', st') →
      ∀ x ∈ st'.tools, validTool x) ∧
    (∀ (u : User) (tool : Tool) (c : Bool) (t' : Tool) (st' : DBState),
      Database.update_tool u tool st c = .ok (t', st') →
      ∀ x ∈ st'.tools, validTool x) ∧
    (∀ (u : User) (tid : UUID) (st' : DBState),
      Database.delete_tool u tid st = .ok st' →
      ∀ x ∈ st'.tools, validTool x) ∧
    (∀ (u : User) (tool : Tool) (c : Bool), ¬ validTool tool →
      Database.create_tool u tool st c = .error .validationError) ∧
    (∀ (u : User) (tool : Tool) (c : Bool), tool.created_by_user_id = u.id →
      ¬ validTool tool →
      Database.update_tool u tool st c = .error .validationError) := by
  refine ⟨?_, ?_, ?_, ?_, ?_⟩
  · intro u tool c t' st' h x hx
    obtain ⟨ht, hv, hst⟩ := create_ok_elim h
    subst hst
    rcases List.mem_append.mp hx with hold | hnew
    · exact hinv x hold
    · rw [List.mem_singleton] at hnew
      subst hnew
      exact (model_validate_iff _).mp hv
  · intro u tool c t' st' h x hx
    obtain ⟨hown, hv, ht, hst⟩ := update_ok_elim h
    subst hst
    obtain ⟨y, hy, hxy⟩ := List.mem_map.mp hx
    by_cases hid : (y.id == tool.id) = true
    · rw [if_pos hid] at hxy
      subst hxy
      exact (model_validate_iff _).mp hv
    · rw [if_neg hid] at hxy
      subst hxy
      exact hinv y hy
  · intro u tid st' h x hx
    obtain ⟨t, _, hst⟩ := delete_ok_elim h
    subst hst
    exact hinv x (List.mem_of_mem_filter hx)
  · intro u tool c hbad
    have hv : Tool.model_validate
        { tool with created_by_user_id := u.id } = false := by
      rw [model_validate_owner]
      exact Bool.eq_false_iff.mpr
        fun hbt => hbad ((model_validate_iff _).mp hbt)
    simp [Database.create_tool, hv]
  · intro u tool c hown hbad
    have hv : Tool.model_validate tool = false :=
      Bool.eq_false_iff.mpr fun hbt => hbad ((model_validate_iff _).mp hbt)
    simp [Database.update_tool, hown, hv]

/-- Witness for C7: creating an empty-named tool fails with
`ValidationError`. -/
theorem claim_C7_witness :
    Database.create_tool ⟨7⟩ blankTool stHammer true
      = .error .validationError :=
  (claim_C7_amended stHammer (by decide)).2.2.2.1 ⟨7⟩ blankTool true
    (by decide)

/-- A quantity-only patch only changes the quantity. -/
theorem patch_quantity_eq (t : Tool) (q : Int) :
    ToolPatch.patch { quantity := some q } t = { t with quantity := q } := rfl

/-- The quantity-update route on a well-formed store: fetches the tool and
stores `max 0 (quantity + 1)` for `"increment"` and `max 0 (quantity - 1)`
for any other action. -/
theorem web_update_quantity_ok (u : User) (tid : UUID) (st : DBState)
    (action : String) (hinv : ∀ x ∈ st.tools, validTool x)
    (t : Tool) (hget : Database.get_tool_by_id u tid st = .ok t) :
    web_update_quantity u tid action st true
      = .ok ({ t with quantity := (max 0 (if action = "increment"
            then t.quantity + 1 else t.quantity - 1)) },
          ⟨st.tools.map (fun x => if x.id == t.id then
            { t with quantity := (max 0 (if action = "increment"
              then t.quantity + 1 else t.quantity - 1)) }
            else x)⟩) := by
  obtain ⟨htm, howner, _⟩ := get_ok_mem hget
  have hval := hinv t htm
  unfold web_update_quantity
  rw [hget]
  dsimp only
  rw [patch_quantity_eq]
  have hv : Tool.model_validate { t with quantity := (max 0
      (if action = "increment"
        then t.quantity + 1 else t.quantity - 1)) } = true := by
    rw [model_validate_iff]
    exact ⟨hval.1, le_max_left 0 _⟩
  simp [Database.update_tool, howner, hv]
  rw [model_validate_iff]
  exact ⟨hval.1, le_max_left 0 _⟩

/-- In a replace-by-id map, every element carrying the replaced id is the
replacement. -/
theorem mem_replace_by_id {l : List Tool} {t tnew : Tool} {x : Tool}
    (hx : x ∈ l.map (fun y => if y.id == t.id then tnew else y))
    (hxid : x.id = t.id) : x = tnew := by
  obtain ⟨y, hy, hxy⟩ := List.mem_map.mp hx
  by_cases hyid : (y.id == t.id) = true
  · rw [if_pos hyid] at hxy
    exact hxy.symm
  · rw [if_neg hyid] at hxy
    subst hxy
    exact absurd hxid (by simpa using hyid)

/-- Claim C8: on a well-formed store, the quantity-update operation with
action `"increment"` stores `quantity + 1`, with `"decrement"` stores
`max 0 (quantity - 1)`, and every stored quantity stays non-negative after
any quantity update, so no sequence of decrements goes below 0. -/
theorem claim_C8 (u : User) (tid : UUID) (st : DBState)
    (hinv : ∀ x ∈ st.tools, validTool x)
    (t : Tool) (hget : Database.get_tool_by_id u tid st = .ok t) :
    (∃ st₁, web_update_quantity u tid "increment" st true
        = .ok ({ t with quantity := t.quantity + 1 }, st₁) ∧
      ∀ x ∈ st₁.tools, x.id = t.id → x.quantity = t.quantity + 1) ∧
    (∃ st₂, web_update_quantity u tid "decrement" st true
        = .ok ({ t with quantity := (max 0 (t.quantity - 1)) }, st₂) ∧
      ∀ x ∈ st₂.tools, x.id = t.id → x.quantity = max 0 (t.quantity - 1)) ∧
    (∀ (action : String) (t' : Tool) (st' : DBState),
      web_update_quantity u tid action st true = .ok (t', st') →
      0 ≤ t'.quantity ∧ ∀ x ∈ st'.tools, 0 ≤ x.quantity) := by
  have h0q : 0 ≤ t.quantity := (hinv t (get_ok_mem hget).1).2
  refine ⟨?_, ?_, ?_⟩
  · have hmax : (max 0 (if ("increment" : String) = "increment"
        then t.quantity + 1 else t.quantity - 1)) = t.quantity + 1 := by
      rw [if_pos rfl]
      exact max_eq_right (by linarith)
    have hkey := web_update_quantity_ok u tid st "increment" hinv t hget
    rw [hmax] at hkey
    refine ⟨_, hkey, ?_⟩
    intro x hx hxid
    rw [mem_replace_by_id hx hxid]
  · have hmax : (max 0 (if ("decrement" : String) = "increment"
        then t.quantity + 1 else t.quantity - 1)) = max 0 (t.quantity - 1) := by
      rw [if_neg (by decide)]
    have hkey := web_update_quantity_ok u tid st "decrement" hinv t hget
    rw [hmax] at hkey
    refine ⟨_, hkey, ?_⟩
    intro x hx hxid
    rw [mem_replace_by_id hx hxid]
  · intro action t' st' h
    rw [web_update_quantity_ok u tid st action hinv t hget] at h
    injection h with h1
    injection h1 with h2 h3
    subst h2
    subst h3
    refine ⟨le_max_left 0 _, ?_⟩
    intro x hx
    obtain ⟨y, hy, hxy⟩ := List.mem_map.mp hx
    by_cases hyid : (y.id == t.id) = true
    · rw [if_pos hyid] at hxy
      subst hxy
      exact le_max_left 0 _
    · rw [if_neg hyid] at hxy
      subst hxy
      exact (hinv y hy).2

/-- Witness for C8 on the concrete hammer store. -/
theorem claim_C8_witness :
    (∃ st₁, web_update_quantity userA 1 "increment" stHammer true
        = .ok ({ hammerTool with quantity := hammerTool.quantity + 1 }, st₁) ∧
      ∀ x ∈ st₁.tools, x.id = hammerTool.id →
        x.quantity = hammerTool.quantity + 1) ∧
    (∃ st₂, web_update_quantity userA 1 "decrement" stHammer true
        = .ok ({ hammerTool with
            quantity := (max 0 (hammerTool.quantity - 1)) }, st₂) ∧
      ∀ x ∈ st₂.tools, x.id = hammerTool.id →
        x.quantity = max 0 (hammerTool.quantity - 1)) ∧
    (∀ (action : String) (t' : Tool) (st' : DBState),
      web_update_quantity userA 1 action stHammer true = .ok (t', st') →
      0 ≤ t'.quantity ∧ ∀ x ∈ st'.tools, 0 ≤ x.quantity) :=
  claim_C8 userA 1 stHammer (by decide) hammerTool (by decide)

/-- Claim C10: every action other than exactly `"increment"` is treated as
a decrement: the result coincides with the `"decrement"` action and stores
`max 0 (quantity - 1)`. -/
theorem claim_C10 (u : User) (tid : UUID) (st : DBState) (action : String)
    (hact : action ≠ "increment")
    (hinv : ∀ x ∈ st.tools, validTool x)
    (t : Tool) (hget : Database.get_tool_by_id u tid st = .ok t) :
    ∃ st', web_update_quantity u tid action st true
        = .ok ({ t with quantity := (max 0 (t.quantity - 1)) }, st') ∧
      web_update_quantity u tid action st true
        = web_update_quantity u tid "decrement" st true ∧
      ∀ x ∈ st'.tools, x.id = t.id → x.quantity = max 0 (t.quantity - 1) := by
  have hkey := web_update_quantity_ok u tid st action hinv t hget
  rw [if_neg hact] at hkey
  have hdec := web_update_quantity_ok u tid st "decrement" hinv t hget
  rw [if_neg (by decide : ¬("decrement" : String) = "increment")] at hdec
  refine ⟨_, hkey, hkey.trans hdec.symm, ?_⟩
  intro x hx hxid
  rw [mem_replace_by_id hx hxid]

/-- Witness for C10: the unknown action `"restock"` decrements. -/
theorem claim_C10_witness :
    ∃ st', web_update_quantity userA 1 "restock" stHammer true
        = .ok ({ hammerTool with
            quantity := (max 0 (hammerTool.quantity - 1)) }, st') ∧
      web_update_quantity userA 1 "restock" stHammer true
        = web_update_quantity userA 1 "decrement" stHammer true ∧
      ∀ x ∈ st'.tools, x.id = hammerTool.id →
        x.quantity = max 0 (hammerTool.quantity - 1) :=
  claim_C10 userA 1 stHammer "restock" (by decide) (by decide) hammerTool
    (by decide)

/-- Counterexample for C1: an owner with two tools both named "Hammer"
searching "Hammer" produces two hits scoring 100 each; Python's tuple sort
compares the two `(100, Tool)` tuples, falls through to `Tool < Tool` and
raises `TypeError` instead of returning the claimed ranked sequence. -/
theorem claim_C1_counterexample :
    (50 < fuzz_ratio (strLower "Hammer") (strLower hammerTool.name)) ∧
    (50 < fuzz_ratio (strLower "Hammer") (strLower hammerDup.name)) ∧
    hammerTool ∈ stTwoHammers.tools ∧ hammerDup ∈ stTwoHammers.tools ∧
    hammerTool.created_by_user_id = userA.id ∧
    hammerDup.created_by_user_id = userA.id ∧
    Database.search_tools userA "Hammer" stTwoHammers
      = .error .typeError := by decide

/-- Claim C1 (amended): when no two hits share a score, `search_tools`
returns exactly the owner's tools whose similarity score between lowercased
query and lowercased name is strictly greater than 50 (51 included, exactly
50 excluded), in descending order of that score; when two hits do share a
score the tuple sort raises `TypeError` and nothing is returned. -/
theorem claim_C1_amended (user : User) (query : String) (st : DBState) :
    ((searchScores user query st).Nodup →
      ∃ l, Database.search_tools user query st = .ok l ∧
        (∀ t, t ∈ l ↔ (t ∈ st.tools ∧ t.created_by_user_id = user.id ∧
          50 < fuzz_ratio (strLower query) (strLower t.name))) ∧
        l.Pairwise (fun a b => fuzz_ratio (strLower query) (strLower b.name)
          ≤ fuzz_ratio (strLower query) (strLower a.name))) ∧
    (¬ (searchScores user query st).Nodup →
      Database.search_tools user query st = .error .typeError) := by
  constructor
  · intro hnt
    refine ⟨(List.insertionSort scoreGe (((st.tools.filter
        (fun t => t.created_by_user_id == user.id)).filter
        (fun t => decide (50 < fuzz_ratio (strLower query)
          (strLower t.name)))).map
        (fun t => (fuzz_ratio (strLower query) (strLower t.name), t)))).map
        Prod.snd, ?_, ?_, ?_⟩
    · simp [Database.search_tools, hnt]
    · intro t
      simp [List.mem_map, List.mem_filter, and_assoc]
      constructor
      · rintro ⟨s, y, hy, h50, how, hsc, rfl⟩
        exact ⟨hy, how, h50⟩
      · rintro ⟨hm, how, h50⟩
        exact ⟨fuzz_ratio (strLower query) (strLower t.name), t, hm, h50,
          how, rfl, rfl⟩
    · rw [List.pairwise_map]
      refine List.Pairwise.imp_of_mem ?_
        (List.sorted_insertionSort scoreGe _)
      intro a b ha hb hr
      have ha' : a.1 = fuzz_ratio (strLower query) (strLower a.2.name) := by
        have ham := (List.perm_insertionSort scoreGe _).mem_iff.mp ha
        obtain ⟨y, hy, hfy⟩ := List.mem_map.mp ham
        rw [← hfy]
      have hb' : b.1 = fuzz_ratio (strLower query) (strLower b.2.name) := by
        have hbm := (List.perm_insertionSort scoreGe _).mem_iff.mp hb
        obtain ⟨y, hy, hfy⟩ := List.mem_map.mp hbm
        rw [← hfy]
      rw [← ha', ← hb']
      exact hr
  · intro hnt
    simp [Database.search_tools, hnt]

/-- Witness for C1: on the single-hammer store the tie-free branch returns
the ranked hit list for the typo query "Hamer", and on the two-hammer store
the tied-score branch raises `TypeError`. -/
theorem claim_C1_witness :
    (∃ l, Database.search_tools userA "Hamer" stHammer = .ok l ∧
      (∀ t, t ∈ l ↔ (t ∈ stHammer.tools ∧
        t.created_by_user_id = userA.id ∧
        50 < fuzz_ratio (strLower "Hamer") (strLower t.name))) ∧
      l.Pairwise (fun a b => fuzz_ratio (strLower "Hamer") (strLower b.name)
        ≤ fuzz_ratio (strLower "Hamer") (strLower a.name))) ∧
    Database.search_tools userA "Hammer" stTwoHammers
      = .error .typeError :=
  ⟨(claim_C1_amended userA "Hamer" stHammer).1 (by decide),
   (claim_C1_amended userA "Hammer" stTwoHammers).2 (by decide)⟩
